import Mathlib

/-!
Verification of the `Config` class in `src/config.py` (wuyilingwei/python-utils).

The embedding is a shallow model of the module:
* `Value` models the dynamically-typed values a config mapping can hold;
  a mapping is an association list with Python-dict semantics.
* The file system and the network are explicit association lists from
  path/URL to the decoded mapping stored there; the byte-level codecs
  (toml/ini/yaml) are abstracted to the identity on mappings, which is the
  granularity at which every claim below is stated.
* `run` is a fuel-indexed interpreter for the two mutually re-entrant
  operations `Config.__init__` (construction) and `Config.validate_config`,
  translated line by line from the source.  Crucially, as in the source,
  `__init__` assigns only `self.path` and `self.config`; the `check_level`
  and `recover_path` arguments are never stored on the instance, so
  attribute lookup falls back to the class attributes `"1111"` / `None`.
* `validateConfigModel` is the straight-line policy core of
  `validate_config` (source lines 120-166), taking the reference mapping
  (`default_config`) and the freshly re-parsed working mapping
  (`temp_config`) as inputs.
-/

deriving instance DecidableEq for Except

namespace PyConfig

/-- A scalar Python value. Floats carry their literal text; no float
arithmetic occurs anywhere in the module. -/
inductive Scalar where
  | str : String → Scalar
  | int : Int → Scalar
  | bool : Bool → Scalar
  | float : String → Scalar
deriving DecidableEq, Repr

/-- A dynamically-typed Python value as stored in a config mapping.
Nested mappings are one level deep, the depth the module's codecs produce
(INI sections); the validation policy treats `dict` values atomically
(only their runtime type tag and whole-value equality are ever used), so
deeper nesting is irrelevant to every claim. -/
inductive Value where
  | str : String → Value
  | int : Int → Value
  | bool : Bool → Value
  | float : String → Value
  | dict : List (String × Scalar) → Value
deriving DecidableEq, Repr

/-- A config mapping: insertion-ordered association list with unique keys
(Python `dict`). -/
abbrev Mapping := List (String × Value)

/-- First-match association lookup (Python `d[k]` / `k in d`). -/
def lookupKey : Mapping → String → Option Value
  | [], _ => none
  | (k, v) :: t, key => if k == key then some v else lookupKey t key

/-- Python `key in d`. -/
def hasKey (m : Mapping) (key : String) : Bool := (lookupKey m key).isSome

/-- Python `d[key] = v`: replace in place if present, else append. -/
def setKey (m : Mapping) (key : String) (v : Value) : Mapping :=
  if hasKey m key then m.map (fun p => if p.1 == key then (key, v) else p)
  else m ++ [(key, v)]

/-- Python `del d[key]`. -/
def eraseKey : Mapping → String → Mapping
  | [], _ => []
  | (k, v) :: t, key => if k == key then eraseKey t key else (k, v) :: eraseKey t key

/-- Python `list(d.keys())`. -/
def keysOf (m : Mapping) : List String := m.map Prod.fst

/-- Python runtime type tags relevant to `type(value)`. -/
inductive PyType where
  | pstr | pint | pbool | pfloat | pdict
deriving DecidableEq, Repr

/-- `type(v)` for our value universe. -/
def typeOf : Value → PyType
  | .str _ => .pstr
  | .int _ => .pint
  | .bool _ => .pbool
  | .float _ => .pfloat
  | .dict _ => .pdict

/-- Python `isinstance(v, t)`; `bool` is a subclass of `int`. -/
def pyIsinstance (v : Value) (t : PyType) : Bool :=
  typeOf v == t || (typeOf v == .pbool && t == .pint)

/-- The file system: decoded content of each existing file. -/
abbrev FS := List (String × Mapping)

/-- The network: decoded YAML body served at each reachable URL. -/
abbrev Net := List (String × Mapping)

/-- Content of a file, if it exists (`os.path.exists` + read). -/
def fsGet : FS → String → Option Mapping
  | [], _ => none
  | (p, m) :: t, path => if p == path then some m else fsGet t path

/-- Overwrite (or create) a file. -/
def fsSet (fs : FS) (path : String) (m : Mapping) : FS :=
  if (fsGet fs path).isSome then
    fs.map (fun q => if q.1 == path then (path, m) else q)
  else fs ++ [(path, m)]

/-- `self.check_level[i]` (a space stands for Python's IndexError). -/
def clDigit (cl : String) (i : Nat) : Char := cl.data.getD i ' '

/-- `int(self.check_level[i])` for digit characters. -/
def digitVal (cl : String) (i : Nat) : Nat := (clDigit cl i).toNat - 48

/-- The errors the module can raise. -/
inductive VErr where
  | unsupportedType
  | loadError
  | saveError
  | missingFieldErr (k : String)
  | typeMismatchErr (k : String)
  | fileNotFound
  | validationFailed
  | refError
deriving DecidableEq, Repr

/-- Whether an error is one of the validation-policy raises of
`validate_config` (`ValueError` for a missing field, `TypeError` for a
type mismatch), as opposed to an I/O or format failure. -/
def VErr.isValidationErr : VErr → Bool
  | .missingFieldErr _ => true
  | .typeMismatchErr _ => true
  | _ => false

/-- One detected discrepancy logged during validation. -/
inductive Finding where
  | missingField (k : String)
  | extraField (k : String)
  | typeMismatch (k : String)
deriving DecidableEq, Repr

/-- `str.endswith(suffix)` on the character level (kernel-reducible). -/
def strEnds (s suffix : String) : Bool := suffix.data.isSuffixOf s.data

/-- `str.startswith(p)` on the character level (kernel-reducible). -/
def strStarts (s p : String) : Bool := p.data.isPrefixOf s.data

/-- Extension dispatch shared by `__init__`, `load_config` and
`save_config` (`.ini`, `.toml`, `.yaml`, `.yml`). -/
def hasSupportedExt (path : String) : Bool :=
  strEnds path ".ini" || strEnds path ".toml" ||
    strEnds path ".yaml" || strEnds path ".yml"

/-- Lines 48-54 of `__init__`: the local variable `type` after the
extension chain (on an unrecognized extension it keeps the argument). -/
def resolveType (path : String) (tyArg : Option String) : Option String :=
  if strEnds path ".ini" then some "ini"
  else if strEnds path ".toml" then some "toml"
  else if strEnds path ".yaml" || strEnds path ".yml" then some "yaml"
  else tyArg

/-- `load_config` (lines 82-106): absent file yields an empty mapping with
a warning; a present file decodes by extension, any other extension raises
`ValueError`.  Decoding is abstracted to reading the stored mapping. -/
def loadConfigModel (path : String) (fs : FS) : Except VErr Mapping :=
  match fsGet fs path with
  | none => .ok []
  | some m => if hasSupportedExt path then .ok m else .error .loadError

/-- `save_config` (lines 209-231): encode by extension and overwrite the
path; any other extension raises `ValueError`. -/
def saveConfigModel (path : String) (cfg : Mapping) (fs : FS) : Except VErr FS :=
  if hasSupportedExt path then .ok (fsSet fs path cfg) else .error .saveError

/-- `load_default_config` (lines 168-207): no `recover_path` yields an
empty mapping with a warning; an `http(s)` locator reads the network (the
body is always parsed as YAML); a local locator must exist and have a
supported extension.  All failures raise `ValueError`. -/
def loadDefaultModel (rp : Option String) (fs : FS) (net : Net) :
    Except VErr Mapping :=
  match rp with
  | none => .ok []
  | some r =>
    if strStarts r "http://" || strStarts r "https://" then
      match fsGet net r with
      | some m => .ok m
      | none => .error .refError
    else
      match fsGet fs r with
      | none => .error .refError
      | some m => if hasSupportedExt r then .ok m else .error .refError

/-- Lines 123-131: `for key in default_config:` — the missing-field loop
of the field check, iterating the reference entries against the working
mapping `T`.  `cl0` is `self.check_level[0]`, `fcl` the field digit. -/
def missingLoop (cl0 : Char) (fcl : Nat) :
    List (String × Value) → Mapping → Except VErr (Mapping × List Finding)
  | [], T => .ok (T, [])
  | (k, v) :: rest, T =>
    if hasKey T k then missingLoop cl0 fcl rest T
    else if fcl == 2 then
      if cl0 == '2' then .error (.missingFieldErr k)
      else (missingLoop cl0 fcl rest T).map (fun p => (p.1, .missingField k :: p.2))
    else if fcl == 1 || fcl == 3 then
      (missingLoop cl0 fcl rest (setKey T k v)).map
        (fun p => (p.1, .missingField k :: p.2))
    else missingLoop cl0 fcl rest T

/-- Lines 132-137: `for key in list(temp_config.keys()):` — the
extra-field scan, run only when the field digit is 1 or 3; digit 3 also
deletes the extra key. -/
def extraLoop (fcl : Nat) (D : Mapping) :
    List String → Mapping → Mapping × List Finding
  | [], T => (T, [])
  | k :: rest, T =>
    if hasKey D k then extraLoop fcl D rest T
    else
      let T1 := if fcl == 3 then eraseKey T k else T
      let p := extraLoop fcl D rest T1
      (p.1, .extraField k :: p.2)

/-- Lines 120-137: the whole field check. -/
def fieldPass (cl0 : Char) (fcl : Nat) (D T : Mapping) :
    Except VErr (Mapping × List Finding) :=
  if fcl > 0 then
    match missingLoop cl0 fcl D T with
    | .error e => .error e
    | .ok (T1, f1) =>
      if fcl == 1 || fcl == 3 then
        let p := extraLoop fcl D (keysOf T1) T1
        .ok (p.1, f1 ++ p.2)
      else .ok (T1, f1)
  else .ok (T, [])

/-- Lines 142-150: `for key, value in default_config.items():` — the
type-check loop; `tcl` is the type digit. -/
def typeLoop (cl0 : Char) (tcl : Nat) :
    List (String × Value) → Mapping → Except VErr (Mapping × List Finding)
  | [], T => .ok (T, [])
  | (k, v) :: rest, T =>
    match lookupKey T k with
    | none => typeLoop cl0 tcl rest T
    | some tv =>
      if pyIsinstance tv (typeOf v) then typeLoop cl0 tcl rest T
      else if tcl == 2 then
        if cl0 == '2' then .error (.typeMismatchErr k)
        else (typeLoop cl0 tcl rest T).map (fun p => (p.1, .typeMismatch k :: p.2))
      else if tcl == 1 then
        (typeLoop cl0 tcl rest (setKey T k v)).map
          (fun p => (p.1, .typeMismatch k :: p.2))
      else typeLoop cl0 tcl rest T

/-- Lines 139-150: the whole type check. -/
def typePass (cl0 : Char) (tcl : Nat) (D T : Mapping) :
    Except VErr (Mapping × List Finding) :=
  if tcl > 0 then typeLoop cl0 tcl D T else .ok (T, [])

/-- Lines 152-163: the recovery block.  Digits 1 and 2 copy the file as
currently persisted to the single fixed name `path ++ ".backup"`
(`shutil.copy` raises if the source is absent), then save either the
working mapping (digit 1) or the reference (digit 2).  The returned
in-memory mapping is in every case the working mapping, because line 165
(`self.config = temp_config`) runs after the block. -/
def recoveryStep (rdigit : Char) (path : String) (D T : Mapping) (fs : FS) :
    Except VErr (Mapping × FS) :=
  if rdigit == '1' || rdigit == '2' then
    match fsGet fs path with
    | none => .error .fileNotFound
    | some content =>
      let fs1 := fsSet fs (path ++ ".backup") content
      let cfgR := if rdigit == '2' then D else T
      match saveConfigModel path cfgR fs1 with
      | .error e => .error e
      | .ok fs2 => .ok (T, fs2)
  else .ok (T, fs)

/-- `validate_config` (lines 108-166) as a function of the instance state:
`cl` is `self.check_level`, `D` the reference mapping returned by
`load_default_config`, `T` the freshly re-parsed working copy
(`Config(self.path, check_level="0000").config`), `cfg0` the current
`self.config`, `fs` the file system.  Returns the bool result, the new
`self.config` and the new file system. -/
def validateConfigModel (cl : String) (D T : Mapping) (path : String)
    (cfg0 : Mapping) (fs : FS) : Except VErr (Bool × Mapping × FS) :=
  if clDigit cl 0 == '0' then .ok (true, cfg0, fs)
  else
    match fieldPass (clDigit cl 0) (digitVal cl 2) D T with
    | .error e => .error e
    | .ok (T1, _) =>
      match typePass (clDigit cl 0) (digitVal cl 1) D T1 with
      | .error e => .error e
      | .ok (T2, _) =>
        match recoveryStep (clDigit cl 3) path D T2 fs with
        | .error e => .error e
        | .ok (cfgF, fs2) => .ok (true, cfgF, fs2)

/-- The findings `validate_config` logs on a given reference/working pair:
the field-pass and type-pass logs, collected in the non-raising severity
mode (severity digit `"1"`), which performs exactly the same mutations as
the raising mode. -/
def findingsOf (cl : String) (D T : Mapping) : List Finding :=
  match fieldPass '1' (digitVal cl 2) D T with
  | .error _ => []
  | .ok (T1, f1) =>
    match typePass '1' (digitVal cl 1) D T1 with
    | .error _ => f1
    | .ok (_, f2) => f1 ++ f2

/-- A finding is fatal when its check ran in enforcing mode: a missing
field under field digit 2, a type mismatch under type digit 2. -/
def Finding.isFatal (cl : String) : Finding → Bool
  | .missingField _ => digitVal cl 2 == 2
  | .typeMismatch _ => digitVal cl 1 == 2
  | .extraField _ => false

/-- The fatal subset of the findings. -/
def fatalFindings (cl : String) (D T : Mapping) : List Finding :=
  (findingsOf cl D T).filter (fun f => f.isFatal cl)

/-- Lines 61-68 of `__init__` given the working mapping: run
`validate_config`, then the constructor's final `save_config`, which
persists whatever `self.config` holds at that point. -/
def validateThenSave (cl : String) (D T : Mapping) (path : String)
    (cfg0 : Mapping) (fs : FS) : Except VErr (Mapping × FS) :=
  match validateConfigModel cl D T path cfg0 fs with
  | .error e => .error e
  | .ok (_, cfgF, fs2) =>
    match saveConfigModel path cfgF fs2 with
    | .error e => .error e
    | .ok fs3 => .ok (cfgF, fs3)

/-- The class attribute `check_level = "1111"` (line 35). -/
def classCheckLevel : String := "1111"

/-- The class attribute `recover_path = None` (line 36). -/
def classRecoverPath : Option String := none

/-- A `Config` instance.  `__init__` assigns only `self.path`,
`self.config` and `self.logger`; `check_level` and `recover_path` are
instance attributes only if some statement assigns them — none does, so
they are carried as `Option`s (set by no code path) and attribute lookup
falls back to the class attributes. -/
structure Inst where
  path : String
  configV : Mapping
  checkLevelAttr : Option String := none
  recoverPathAttr : Option (Option String) := none
deriving DecidableEq, Repr

/-- Python attribute lookup for `self.check_level`: the instance
attribute if ever assigned, else the class attribute. -/
def Inst.checkLevel (i : Inst) : String := i.checkLevelAttr.getD classCheckLevel

/-- Python attribute lookup for `self.recover_path`. -/
def Inst.recoverPath (i : Inst) : Option String :=
  i.recoverPathAttr.getD classRecoverPath

/-- The instance state right after lines 46-59 of `__init__`: only
`self.path` and `self.config` have been assigned. -/
def initInst (path : String) (cfg : Mapping) : Inst :=
  { path := path, configV := cfg }

/-- A call into the module: constructing `Config(path, type, recover_path,
check_level)` on a given file system, or invoking `validate_config` on an
instance. -/
inductive Call where
  | construct (path : String) (tyArg : Option String) (rp : Option String)
      (cl : String) (fs : FS)
  | validate (i : Inst) (fs : FS)

/-- Result of a call. -/
inductive Outcome where
  | constructed (i : Inst) (fs : FS)
  | validated (b : Bool) (i : Inst) (fs : FS)
deriving DecidableEq, Repr

/-- The constructor's final step: `self.save_config()` (line 68). -/
def finishSave (i : Inst) (fs : FS) : Option (Except VErr Outcome) :=
  match saveConfigModel i.path i.configV fs with
  | .error e => some (.error e)
  | .ok fs2 => some (.ok (.constructed i fs2))

/-- Fuel-indexed interpreter for `__init__` (lines 40-68) and
`validate_config` (lines 108-166), which re-enter each other:
construction calls `validate_config`, and `validate_config` constructs
`Config(self.path, check_level="0000")` to obtain its working copy.
`none` means the call did not finish within the given fuel; a result
that holds for every fuel bound is the call's real behavior. -/
def run (net : Net) : Nat → Call → Option (Except VErr Outcome)
  | 0, _ => none
  | fuel + 1, .construct path tyArg _rp cl fs =>
    -- the `recover_path` argument is read by no statement of `__init__`
    let ty := resolveType path tyArg
    if !hasSupportedExt path && clDigit cl 0 == '2' then
      some (.error .unsupportedType)
    else
      match loadConfigModel path fs with
      | .error e => some (.error e)
      | .ok cfg =>
        match ty with
        | none => finishSave (initInst path cfg) fs
        | some _ =>
          match run net fuel (.validate (initInst path cfg) fs) with
          | none => none
          | some (.error e) => some (.error e)
          | some (.ok (.validated b i2 fs2)) =>
            if b == false && clDigit cl 0 == '2' then
              some (.error .validationFailed)
            else finishSave i2 fs2
          | some (.ok (.constructed _ _)) => none
  | fuel + 1, .validate i fs =>
    if clDigit i.checkLevel 0 == '0' then
      some (.ok (.validated true i fs))
    else
      match loadDefaultModel i.recoverPath fs net with
      | .error e => some (.error e)
      | .ok D =>
        match run net fuel (.construct i.path none none "0000" fs) with
        | none => none
        | some (.error e) => some (.error e)
        | some (.ok (.constructed tempInst fs2)) =>
          match validateConfigModel i.checkLevel D tempInst.configV i.path
              i.configV fs2 with
          | .error e => some (.error e)
          | .ok (b, cfgF, fs3) =>
            some (.ok (.validated b { i with configV := cfgF } fs3))
        | some (.ok (.validated _ _ _)) => none

/-! ### Association-list lemmas -/

/-- First-of-two on optional values: `a` if present, else `b`. -/
def oOr (a b : Option Value) : Option Value :=
  match a with
  | some v => some v
  | none => b

theorem oOr_none_right (a : Option Value) : oOr a none = a := by
  cases a <;> rfl

theorem oOr_assoc (a b c : Option Value) :
    oOr (oOr a b) c = oOr a (oOr b c) := by
  cases a <;> rfl

theorem lookupKey_cons (k : String) (v : Value) (t : Mapping) (key : String) :
    lookupKey ((k, v) :: t) key =
      if k == key then some v else lookupKey t key := rfl

theorem lookupKey_eq_none_of_hasKey_false {T : Mapping} {k : String}
    (h : hasKey T k = false) : lookupKey T k = none := by
  unfold hasKey at h
  cases hl : lookupKey T k with
  | none => rfl
  | some v => rw [hl] at h; simp at h

theorem hasKey_false_iff {T : Mapping} {k : String} :
    hasKey T k = false ↔ lookupKey T k = none := by
  constructor
  · exact lookupKey_eq_none_of_hasKey_false
  · intro h; unfold hasKey; rw [h]; rfl

theorem mem_keysOf_of_lookupKey {T : Mapping} {k : String} {v : Value}
    (h : lookupKey T k = some v) : k ∈ keysOf T := by
  induction T with
  | nil => simp [lookupKey] at h
  | cons p t ih =>
    obtain ⟨a, b⟩ := p
    rw [lookupKey_cons] at h
    by_cases hp : a = k
    · simp [keysOf, hp]
    · rw [if_neg (by simpa using hp)] at h
      simp only [keysOf, List.map_cons, List.mem_cons]
      right
      exact ih h

theorem lookupKey_append_single (T : Mapping) (k : String) (v : Value)
    (key : String) :
    lookupKey (T ++ [(k, v)]) key =
      oOr (lookupKey T key) (if k == key then some v else none) := by
  induction T with
  | nil => rfl
  | cons p t ih =>
    obtain ⟨a, b⟩ := p
    by_cases hp : a == key
    · simp [lookupKey_cons, hp, oOr]
    · simp [lookupKey_cons, hp, ih]

theorem lookupKey_eraseKey (T : Mapping) (k key : String) :
    lookupKey (eraseKey T k) key =
      if k == key then none else lookupKey T key := by
  induction T with
  | nil => cases hk : (k == key) <;> simp [eraseKey, lookupKey, hk]
  | cons p t ih =>
    obtain ⟨a, b⟩ := p
    by_cases hak : a = k
    · subst hak
      by_cases hkey : a = key
      · subst hkey
        simp [eraseKey, ih]
      · simp [eraseKey, lookupKey_cons, hkey, ih]
    · by_cases hkey : a = key
      · subst hkey
        have hka : ¬ k = a := fun h => hak h.symm
        simp [eraseKey, lookupKey_cons, hak, hka]
      · simp [eraseKey, lookupKey_cons, hak, hkey, ih]

theorem setKey_absent {T : Mapping} {k : String} (v : Value)
    (h : hasKey T k = false) : setKey T k v = T ++ [(k, v)] := by
  unfold setKey
  rw [h]
  rfl

/-! ### The missing-field fill loop (field digit 1 or 3) -/

/-- With field digit 1 or 3 the missing-field loop never raises, and the
resulting mapping looks up as "the working mapping, else the processed
reference entries". -/
theorem missingLoop_fill (cl0 : Char) (fcl : Nat) (hf : fcl = 1 ∨ fcl = 3) :
    ∀ (L : List (String × Value)) (T : Mapping), ∃ pr,
      missingLoop cl0 fcl L T = .ok pr ∧
      ∀ key, lookupKey pr.1 key = oOr (lookupKey T key) (lookupKey L key) := by
  intro L
  induction L with
  | nil =>
    intro T
    refine ⟨(T, []), rfl, ?_⟩
    intro key
    simp [lookupKey, oOr_none_right]
  | cons p rest ih =>
    obtain ⟨k, v⟩ := p
    intro T
    by_cases hk : hasKey T k = true
    · obtain ⟨pr, hpr, hlook⟩ := ih T
      refine ⟨pr, ?_, ?_⟩
      · unfold missingLoop
        rw [hk]
        exact hpr
      · intro key
        rw [hlook key, lookupKey_cons]
        by_cases hkk : k = key
        · subst hkk
          unfold hasKey at hk
          cases hl : lookupKey T k with
          | none => rw [hl] at hk; simp at hk
          | some w => simp [hl, oOr]
        · rw [if_neg (by simpa using hkk)]
    · have hk' : hasKey T k = false := by
        cases h : hasKey T k
        · rfl
        · exact absurd h hk
      obtain ⟨pr, hpr, hlook⟩ := ih (setKey T k v)
      have hfcl2 : (fcl == 2) = false := by
        rcases hf with h1 | h3 <;> subst_vars <;> rfl
      have hfcl13 : (fcl == 1 || fcl == 3) = true := by
        rcases hf with h1 | h3 <;> subst_vars <;> rfl
      refine ⟨(pr.1, .missingField k :: pr.2), ?_, ?_⟩
      · unfold missingLoop
        rw [hk', hfcl2, hfcl13]
        simp only [Bool.false_eq_true, if_false, if_true, hpr, Except.map]
      · intro key
        rw [hlook key, setKey_absent v hk', lookupKey_append_single,
          lookupKey_cons, oOr_assoc]
        by_cases hkk : k = key
        · subst hkk
          rw [lookupKey_eq_none_of_hasKey_false hk']
          simp [oOr]
        · have : (k == key) = false := by simpa using hkk
          rw [this]
          simp [oOr]

/-! ### The extra-field scan with deletion (field digit 3) -/

theorem extraLoop_cons (fcl : Nat) (D : Mapping) (k : String)
    (rest : List String) (T : Mapping) :
    extraLoop fcl D (k :: rest) T =
      if hasKey D k then extraLoop fcl D rest T
      else
        ((extraLoop fcl D rest (if fcl == 3 then eraseKey T k else T)).1,
          .extraField k ::
            (extraLoop fcl D rest (if fcl == 3 then eraseKey T k else T)).2) := rfl

/-- With field digit 3 the extra-field scan deletes exactly the scanned
keys that are absent from the reference. -/
theorem extraLoop_delete (D : Mapping) :
    ∀ (ks : List String) (T : Mapping) (key : String),
      lookupKey (extraLoop 3 D ks T).1 key =
        if key ∈ ks ∧ hasKey D key = false then none else lookupKey T key := by
  intro ks
  induction ks with
  | nil =>
    intro T key
    simp [extraLoop]
  | cons k rest ih =>
    intro T key
    rw [extraLoop_cons]
    by_cases hk : hasKey D k = true
    · simp only [hk, if_true, ih]
      by_cases hkk : key = k
      · subst hkk
        simp [hk]
      · simp [List.mem_cons, hkk]
    · have hk' : hasKey D k = false := by simpa using hk
      simp only [hk', Bool.false_eq_true, if_false]
      have h3 : ((3 : Nat) == 3) = true := rfl
      simp only [h3, if_true]
      rw [ih, lookupKey_eraseKey]
      by_cases hkk : key = k
      · subst hkk
        simp [hk']
      · have hbk : (k == key) = false := by
          simp only [beq_eq_false_iff_ne, ne_eq]
          exact fun h => hkk h.symm
        simp [List.mem_cons, hkk, hbk]

/-- Claim C5: with field digit 3 the field pass never raises; the
resulting working mapping removes exactly the keys absent from the
reference, fills exactly the reference keys absent from the working
mapping with the reference's values, and leaves every key present in both
mappings unchanged — for every key, the result looks up to the original
working value if the key is shared, to the reference value if the key was
missing, and to nothing if the key was extra. -/
theorem c5_field_digit3_exact (cl0 : Char) (D T : Mapping) :
    ∃ pr, fieldPass cl0 3 D T = .ok pr ∧
      ∀ key, lookupKey pr.1 key =
        if hasKey D key then oOr (lookupKey T key) (lookupKey D key)
        else none := by
  obtain ⟨⟨T1, f1⟩, hpr1, hlook1⟩ := missingLoop_fill cl0 3 (Or.inr rfl) D T
  refine ⟨((extraLoop 3 D (keysOf T1) T1).1,
    f1 ++ (extraLoop 3 D (keysOf T1) T1).2), ?_, ?_⟩
  · unfold fieldPass
    rw [hpr1]
    rfl
  · intro key
    simp only [extraLoop_delete]
    by_cases hD : hasKey D key = true
    · have hcond : ¬ (key ∈ keysOf T1 ∧ hasKey D key = false) := by
        rintro ⟨-, hc⟩
        rw [hD] at hc
        simp at hc
      rw [if_neg hcond, hlook1 key, if_pos hD]
    · have hD' : hasKey D key = false := by simpa using hD
      rw [if_neg hD]
      by_cases hmem : key ∈ keysOf T1
      · rw [if_pos ⟨hmem, hD'⟩]
      · rw [if_neg (fun hc => hmem hc.1)]
        cases hl : lookupKey T1 key with
        | none => rfl
        | some v => exact absurd (mem_keysOf_of_lookupKey hl) hmem

/-! ### Plumbing for `Except.map` -/

theorem exceptMap_ok {α β : Type} {f : α → β} {x : Except VErr α} {b : β}
    (h : x.map f = .ok b) : ∃ a, x = .ok a ∧ b = f a := by
  cases x with
  | error e => simp [Except.map] at h
  | ok a =>
    refine ⟨a, rfl, ?_⟩
    simpa [Except.map] using h.symm

theorem exceptMap_error {α β : Type} {f : α → β} {x : Except VErr α}
    {e : VErr} : x.map f = .error e ↔ x = .error e := by
  cases x <;> simp [Except.map]

/-! ### One-step equations for the loops -/

theorem missingLoop_cons (cl0 : Char) (fcl : Nat) (k : String) (v : Value)
    (rest : List (String × Value)) (T : Mapping) :
    missingLoop cl0 fcl ((k, v) :: rest) T =
      if hasKey T k then missingLoop cl0 fcl rest T
      else if fcl == 2 then
        if cl0 == '2' then .error (.missingFieldErr k)
        else (missingLoop cl0 fcl rest T).map
          (fun p => (p.1, .missingField k :: p.2))
      else if fcl == 1 || fcl == 3 then
        (missingLoop cl0 fcl rest (setKey T k v)).map
          (fun p => (p.1, .missingField k :: p.2))
      else missingLoop cl0 fcl rest T := rfl

theorem typeLoop_cons (cl0 : Char) (tcl : Nat) (k : String) (v : Value)
    (rest : List (String × Value)) (T : Mapping) :
    typeLoop cl0 tcl ((k, v) :: rest) T =
      match lookupKey T k with
      | none => typeLoop cl0 tcl rest T
      | some tv =>
        if pyIsinstance tv (typeOf v) then typeLoop cl0 tcl rest T
        else if tcl == 2 then
          if cl0 == '2' then .error (.typeMismatchErr k)
          else (typeLoop cl0 tcl rest T).map
            (fun p => (p.1, .typeMismatch k :: p.2))
        else if tcl == 1 then
          (typeLoop cl0 tcl rest (setKey T k v)).map
            (fun p => (p.1, .typeMismatch k :: p.2))
        else typeLoop cl0 tcl rest T := rfl

/-! ### Error characterization of the two checking loops -/

/-- An entry of the reference whose key is present in the working mapping
with a value of the wrong runtime type. -/
def misfit (T : Mapping) (p : String × Value) : Bool :=
  match lookupKey T p.1 with
  | some tv => !(pyIsinstance tv (typeOf p.2))
  | none => false

/-- The missing-field loop raises exactly when severity is `'2'`, the
field digit is 2, and some reference key is absent. -/
theorem missingLoop_error_iff (cl0 : Char) (fcl : Nat) :
    ∀ (L : List (String × Value)) (T : Mapping),
      (∃ e, missingLoop cl0 fcl L T = .error e) ↔
        (cl0 = '2' ∧ fcl = 2 ∧ L.any (fun p => !hasKey T p.1) = true) := by
  intro L
  induction L with
  | nil =>
    intro T
    constructor
    · rintro ⟨e, he⟩
      cases he
    · rintro ⟨-, -, h⟩
      simp [List.any] at h
  | cons p rest ih =>
    obtain ⟨k, v⟩ := p
    intro T
    rw [missingLoop_cons]
    by_cases hk : hasKey T k = true
    · rw [if_pos hk, ih]
      simp [List.any_cons, hk]
    · have hk' : hasKey T k = false := by simpa using hk
      rw [if_neg hk]
      by_cases h2 : fcl = 2
      · subst h2
        simp only [beq_self_eq_true, if_true]
        by_cases hc : cl0 = '2'
        · subst hc
          simp only [beq_self_eq_true, if_true]
          constructor
          · rintro -
            exact ⟨by simp, by simp, by simp [List.any_cons, hk']⟩
          · rintro -
            exact ⟨_, rfl⟩
        · have hcb : (cl0 == '2') = false := by simpa using hc
          rw [hcb]
          simp only [Bool.false_eq_true, if_false]
          constructor
          · rintro ⟨e, he⟩
            rw [exceptMap_error] at he
            exact absurd (ih T |>.mp ⟨e, he⟩).1 hc
          · rintro ⟨hc2, -, -⟩
            exact absurd hc2 hc
      · have h2b : (fcl == 2) = false := by simpa using h2
        rw [h2b]
        simp only [Bool.false_eq_true, if_false]
        by_cases h13 : (fcl == 1 || fcl == 3) = true
        · rw [if_pos h13]
          constructor
          · rintro ⟨e, he⟩
            rw [exceptMap_error] at he
            exact absurd (ih (setKey T k v) |>.mp ⟨e, he⟩).2.1 h2
          · rintro ⟨-, hc2, -⟩
            exact absurd hc2 h2
        · rw [if_neg h13, ih]
          constructor
          · rintro ⟨hc, hc2, hany⟩
            exact absurd hc2 h2
          · rintro ⟨hc, hc2, hany⟩
            exact absurd hc2 h2

/-- The type-check loop raises exactly when severity is `'2'`, the type
digit is 2, and some shared key has a mistyped value. -/
theorem typeLoop_error_iff (cl0 : Char) (tcl : Nat) :
    ∀ (L : List (String × Value)) (T : Mapping),
      (∃ e, typeLoop cl0 tcl L T = .error e) ↔
        (cl0 = '2' ∧ tcl = 2 ∧ L.any (misfit T) = true) := by
  intro L
  induction L with
  | nil =>
    intro T
    constructor
    · rintro ⟨e, he⟩
      cases he
    · rintro ⟨-, -, h⟩
      simp [List.any] at h
  | cons p rest ih =>
    obtain ⟨k, v⟩ := p
    intro T
    cases hl : lookupKey T k with
    | none =>
      rw [typeLoop_cons, hl]
      rw [ih]
      simp [List.any_cons, misfit, hl]
    | some tv =>
      rw [typeLoop_cons, hl]
      dsimp only
      by_cases hinst : pyIsinstance tv (typeOf v) = true
      · rw [if_pos hinst, ih]
        simp [List.any_cons, misfit, hl, hinst]
      · have hinst' : pyIsinstance tv (typeOf v) = false := by simpa using hinst
        rw [if_neg hinst]
        by_cases h2 : tcl = 2
        · subst h2
          simp only [beq_self_eq_true, if_true]
          by_cases hc : cl0 = '2'
          · subst hc
            simp only [beq_self_eq_true, if_true]
            constructor
            · rintro -
              exact ⟨by simp, by simp, by simp [List.any_cons, misfit, hl, hinst']⟩
            · rintro -
              exact ⟨_, rfl⟩
          · have hcb : (cl0 == '2') = false := by simpa using hc
            rw [hcb]
            simp only [Bool.false_eq_true, if_false]
            constructor
            · rintro ⟨e, he⟩
              rw [exceptMap_error] at he
              exact absurd (ih T |>.mp ⟨e, he⟩).1 hc
            · rintro ⟨hc2, -, -⟩
              exact absurd hc2 hc
        · have h2b : (tcl == 2) = false := by simpa using h2
          rw [h2b]
          simp only [Bool.false_eq_true, if_false]
          by_cases h1 : (tcl == 1) = true
          · rw [if_pos h1]
            constructor
            · rintro ⟨e, he⟩
              rw [exceptMap_error] at he
              exact absurd (ih (setKey T k v) |>.mp ⟨e, he⟩).2.1 h2
            · rintro ⟨-, hc2, -⟩
              exact absurd hc2 h2
          · rw [if_neg h1, ih]
            constructor
            · rintro ⟨hc, hc2, hany⟩
              exact absurd hc2 h2
            · rintro ⟨hc, hc2, hany⟩
              exact absurd hc2 h2

/-- The severity character only decides raise-versus-log: any two
non-raising runs of the missing-field loop agree completely. -/
theorem missingLoop_ok_unique (cl0 cl0' : Char) (fcl : Nat) :
    ∀ (L : List (String × Value)) (T : Mapping) (pr pr' : Mapping × List Finding),
      missingLoop cl0 fcl L T = .ok pr → missingLoop cl0' fcl L T = .ok pr' →
      pr = pr' := by
  intro L
  induction L with
  | nil =>
    intro T pr pr' h h'
    cases h
    cases h'
    rfl
  | cons p rest ih =>
    obtain ⟨k, v⟩ := p
    intro T pr pr' h h'
    rw [missingLoop_cons] at h h'
    by_cases hk : hasKey T k = true
    · rw [if_pos hk] at h h'
      exact ih T pr pr' h h'
    · rw [if_neg hk] at h h'
      by_cases h2 : (fcl == 2) = true
      · rw [if_pos h2] at h h'
        by_cases hc : (cl0 == '2') = true
        · rw [if_pos hc] at h
          cases h
        · rw [if_neg hc] at h
          by_cases hc' : (cl0' == '2') = true
          · rw [if_pos hc'] at h'
            cases h'
          · rw [if_neg hc'] at h'
            obtain ⟨q, hq, hpr⟩ := exceptMap_ok h
            obtain ⟨q', hq', hpr'⟩ := exceptMap_ok h'
            rw [hpr, hpr', ih T q q' hq hq']
      · rw [if_neg h2] at h h'
        by_cases h13 : (fcl == 1 || fcl == 3) = true
        · rw [if_pos h13] at h h'
          obtain ⟨q, hq, hpr⟩ := exceptMap_ok h
          obtain ⟨q', hq', hpr'⟩ := exceptMap_ok h'
          rw [hpr, hpr', ih (setKey T k v) q q' hq hq']
        · rw [if_neg h13] at h h'
          exact ih T pr pr' h h'

/-- The severity character only decides raise-versus-log: any two
non-raising runs of the type-check loop agree completely. -/
theorem typeLoop_ok_unique (cl0 cl0' : Char) (tcl : Nat) :
    ∀ (L : List (String × Value)) (T : Mapping) (pr pr' : Mapping × List Finding),
      typeLoop cl0 tcl L T = .ok pr → typeLoop cl0' tcl L T = .ok pr' →
      pr = pr' := by
  intro L
  induction L with
  | nil =>
    intro T pr pr' h h'
    cases h
    cases h'
    rfl
  | cons p rest ih =>
    obtain ⟨k, v⟩ := p
    intro T pr pr' h h'
    rw [typeLoop_cons] at h h'
    cases hl : lookupKey T k with
    | none =>
      rw [hl] at h h'
      exact ih T pr pr' h h'
    | some tv =>
      rw [hl] at h h'
      dsimp only at h h'
      by_cases hinst : pyIsinstance tv (typeOf v) = true
      · rw [if_pos hinst] at h h'
        exact ih T pr pr' h h'
      · rw [if_neg hinst] at h h'
        by_cases h2 : (tcl == 2) = true
        · rw [if_pos h2] at h h'
          by_cases hc : (cl0 == '2') = true
          · rw [if_pos hc] at h
            cases h
          · rw [if_neg hc] at h
            by_cases hc' : (cl0' == '2') = true
            · rw [if_pos hc'] at h'
              cases h'
            · rw [if_neg hc'] at h'
              obtain ⟨q, hq, hpr⟩ := exceptMap_ok h
              obtain ⟨q', hq', hpr'⟩ := exceptMap_ok h'
              rw [hpr, hpr', ih T q q' hq hq']
        · rw [if_neg h2] at h h'
          by_cases h1 : (tcl == 1) = true
          · rw [if_pos h1] at h h'
            obtain ⟨q, hq, hpr⟩ := exceptMap_ok h
            obtain ⟨q', hq', hpr'⟩ := exceptMap_ok h'
            rw [hpr, hpr', ih (setKey T k v) q q' hq hq']
          · rw [if_neg h1] at h h'
            exact ih T pr pr' h h'

/-- A field digit other than 1, 2, 3 makes the missing-field loop a
pure no-op. -/
theorem missingLoop_other (cl0 : Char) (fcl : Nat) (h1 : fcl ≠ 1)
    (h2 : fcl ≠ 2) (h3 : fcl ≠ 3) :
    ∀ (L : List (String × Value)) (T : Mapping),
      missingLoop cl0 fcl L T = .ok (T, []) := by
  intro L
  induction L with
  | nil => intro T; rfl
  | cons p rest ih =>
    obtain ⟨k, v⟩ := p
    intro T
    rw [missingLoop_cons]
    by_cases hk : hasKey T k = true
    · rw [if_pos hk, ih]
    · rw [if_neg hk]
      have hb2 : (fcl == 2) = false := by simpa using h2
      have hb13 : (fcl == 1 || fcl == 3) = false := by
        simp [h1, h3]
      rw [hb2, hb13]
      simp only [Bool.false_eq_true, if_false]
      exact ih T

/-- A type digit other than 1, 2 makes the type-check loop a pure no-op. -/
theorem typeLoop_other (cl0 : Char) (tcl : Nat) (h1 : tcl ≠ 1)
    (h2 : tcl ≠ 2) :
    ∀ (L : List (String × Value)) (T : Mapping),
      typeLoop cl0 tcl L T = .ok (T, []) := by
  intro L
  induction L with
  | nil => intro T; rfl
  | cons p rest ih =>
    obtain ⟨k, v⟩ := p
    intro T
    rw [typeLoop_cons]
    cases hl : lookupKey T k with
    | none => exact ih T
    | some tv =>
      dsimp only
      by_cases hinst : pyIsinstance tv (typeOf v) = true
      · rw [if_pos hinst]
        exact ih T
      · rw [if_neg hinst]
        have hb2 : (tcl == 2) = false := by simpa using h2
        have hb1 : (tcl == 1) = false := by simpa using h1
        rw [hb2, hb1]
        simp only [Bool.false_eq_true, if_false]
        exact ih T

/-- Field digit 2 in a non-raising severity mode: the mapping is left
untouched and the findings are exactly the missing reference keys. -/
theorem missingLoop_two_value (cl0 : Char) (hc : cl0 ≠ '2') :
    ∀ (L : List (String × Value)) (T : Mapping),
      missingLoop cl0 2 L T =
        .ok (T, (L.filter (fun p => !hasKey T p.1)).map
          (fun p => Finding.missingField p.1)) := by
  intro L
  induction L with
  | nil => intro T; rfl
  | cons p rest ih =>
    obtain ⟨k, v⟩ := p
    intro T
    rw [missingLoop_cons]
    by_cases hk : hasKey T k = true
    · rw [if_pos hk, ih]
      simp [List.filter_cons, hk]
    · have hk' : hasKey T k = false := by simpa using hk
      rw [if_neg hk]
      have hcb : (cl0 == '2') = false := by simpa using hc
      simp only [beq_self_eq_true, if_true, hcb, Bool.false_eq_true, if_false]
      rw [ih]
      simp [List.filter_cons, hk', Except.map]

/-- Type digit 2 in a non-raising severity mode: the mapping is left
untouched and the findings are exactly the mistyped shared keys. -/
theorem typeLoop_two_value (cl0 : Char) (hc : cl0 ≠ '2') :
    ∀ (L : List (String × Value)) (T : Mapping),
      typeLoop cl0 2 L T =
        .ok (T, (L.filter (misfit T)).map
          (fun p => Finding.typeMismatch p.1)) := by
  intro L
  induction L with
  | nil => intro T; rfl
  | cons p rest ih =>
    obtain ⟨k, v⟩ := p
    intro T
    rw [typeLoop_cons]
    cases hl : lookupKey T k with
    | none =>
      rw [ih]
      simp [List.filter_cons, misfit, hl]
    | some tv =>
      dsimp only
      by_cases hinst : pyIsinstance tv (typeOf v) = true
      · rw [if_pos hinst, ih]
        simp [List.filter_cons, misfit, hl, hinst]
      · have hinst' : pyIsinstance tv (typeOf v) = false := by simpa using hinst
        rw [if_neg hinst]
        have hcb : (cl0 == '2') = false := by simpa using hc
        simp only [beq_self_eq_true, if_true, hcb, Bool.false_eq_true, if_false]
        rw [ih]
        simp [List.filter_cons, misfit, hl, hinst', Except.map]

theorem exceptOk_of_no_error {α : Type} (x : Except VErr α)
    (h : ∀ e, x ≠ .error e) : ∃ a, x = .ok a := by
  cases x with
  | error e => exact absurd rfl (h e)
  | ok a => exact ⟨a, rfl⟩

/-- The missing-field loop only raises missing-field `ValueError`s. -/
theorem missingLoop_error_shape (cl0 : Char) (fcl : Nat) :
    ∀ (L : List (String × Value)) (T : Mapping) (e : VErr),
      missingLoop cl0 fcl L T = .error e → ∃ k, e = .missingFieldErr k := by
  intro L
  induction L with
  | nil =>
    intro T e h
    cases h
  | cons p rest ih =>
    obtain ⟨k, v⟩ := p
    intro T e h
    rw [missingLoop_cons] at h
    by_cases hk : hasKey T k = true
    · rw [if_pos hk] at h
      exact ih T e h
    · rw [if_neg hk] at h
      by_cases h2 : (fcl == 2) = true
      · rw [if_pos h2] at h
        by_cases hc : (cl0 == '2') = true
        · rw [if_pos hc] at h
          cases h
          exact ⟨k, rfl⟩
        · rw [if_neg hc, exceptMap_error] at h
          exact ih T e h
      · rw [if_neg h2] at h
        by_cases h13 : (fcl == 1 || fcl == 3) = true
        · rw [if_pos h13, exceptMap_error] at h
          exact ih (setKey T k v) e h
        · rw [if_neg h13] at h
          exact ih T e h

/-- The type-check loop only raises type-mismatch `TypeError`s. -/
theorem typeLoop_error_shape (cl0 : Char) (tcl : Nat) :
    ∀ (L : List (String × Value)) (T : Mapping) (e : VErr),
      typeLoop cl0 tcl L T = .error e → ∃ k, e = .typeMismatchErr k := by
  intro L
  induction L with
  | nil =>
    intro T e h
    cases h
  | cons p rest ih =>
    obtain ⟨k, v⟩ := p
    intro T e h
    rw [typeLoop_cons] at h
    cases hl : lookupKey T k with
    | none =>
      rw [hl] at h
      exact ih T e h
    | some tv =>
      rw [hl] at h
      dsimp only at h
      by_cases hinst : pyIsinstance tv (typeOf v) = true
      · rw [if_pos hinst] at h
        exact ih T e h
      · rw [if_neg hinst] at h
        by_cases h2 : (tcl == 2) = true
        · rw [if_pos h2] at h
          by_cases hc : (cl0 == '2') = true
          · rw [if_pos hc] at h
            cases h
            exact ⟨k, rfl⟩
          · rw [if_neg hc, exceptMap_error] at h
            exact ih T e h
        · rw [if_neg h2] at h
          by_cases h1 : (tcl == 1) = true
          · rw [if_pos h1, exceptMap_error] at h
            exact ih (setKey T k v) e h
          · rw [if_neg h1] at h
            exact ih T e h

/-- The missing-field loop emits only `missingField` findings. -/
theorem missingLoop_findings_shape (cl0 : Char) (fcl : Nat) :
    ∀ (L : List (String × Value)) (T : Mapping) (pr : Mapping × List Finding),
      missingLoop cl0 fcl L T = .ok pr →
      ∀ x ∈ pr.2, ∃ k, x = Finding.missingField k := by
  intro L
  induction L with
  | nil =>
    intro T pr h x hx
    cases h
    simp at hx
  | cons p rest ih =>
    obtain ⟨k, v⟩ := p
    intro T pr h x hx
    rw [missingLoop_cons] at h
    by_cases hk : hasKey T k = true
    · rw [if_pos hk] at h
      exact ih T pr h x hx
    · rw [if_neg hk] at h
      by_cases h2 : (fcl == 2) = true
      · rw [if_pos h2] at h
        by_cases hc : (cl0 == '2') = true
        · rw [if_pos hc] at h
          cases h
        · rw [if_neg hc] at h
          obtain ⟨q, hq, hpr⟩ := exceptMap_ok h
          subst hpr
          rcases List.mem_cons.mp hx with hx1 | hx2
          · exact ⟨k, hx1⟩
          · exact ih T q hq x hx2
      · rw [if_neg h2] at h
        by_cases h13 : (fcl == 1 || fcl == 3) = true
        · rw [if_pos h13] at h
          obtain ⟨q, hq, hpr⟩ := exceptMap_ok h
          subst hpr
          rcases List.mem_cons.mp hx with hx1 | hx2
          · exact ⟨k, hx1⟩
          · exact ih (setKey T k v) q hq x hx2
        · rw [if_neg h13] at h
          exact ih T pr h x hx

/-- The extra-field scan emits only `extraField` findings. -/
theorem extraLoop_findings_shape (fcl : Nat) (D : Mapping) :
    ∀ (ks : List String) (T : Mapping),
      ∀ x ∈ (extraLoop fcl D ks T).2, ∃ k, x = Finding.extraField k := by
  intro ks
  induction ks with
  | nil =>
    intro T x hx
    simp [extraLoop] at hx
  | cons k rest ih =>
    intro T x hx
    rw [extraLoop_cons] at hx
    by_cases hk : hasKey D k = true
    · rw [if_pos hk] at hx
      exact ih T x hx
    · rw [if_neg hk] at hx
      dsimp only at hx
      rcases List.mem_cons.mp hx with hx1 | hx2
      · exact ⟨k, hx1⟩
      · exact ih _ x hx2

/-- The type-check loop emits only `typeMismatch` findings. -/
theorem typeLoop_findings_shape (cl0 : Char) (tcl : Nat) :
    ∀ (L : List (String × Value)) (T : Mapping) (pr : Mapping × List Finding),
      typeLoop cl0 tcl L T = .ok pr →
      ∀ x ∈ pr.2, ∃ k, x = Finding.typeMismatch k := by
  intro L
  induction L with
  | nil =>
    intro T pr h x hx
    cases h
    simp at hx
  | cons p rest ih =>
    obtain ⟨k, v⟩ := p
    intro T pr h x hx
    rw [typeLoop_cons] at h
    cases hl : lookupKey T k with
    | none =>
      rw [hl] at h
      exact ih T pr h x hx
    | some tv =>
      rw [hl] at h
      dsimp only at h
      by_cases hinst : pyIsinstance tv (typeOf v) = true
      · rw [if_pos hinst] at h
        exact ih T pr h x hx
      · rw [if_neg hinst] at h
        by_cases h2 : (tcl == 2) = true
        · rw [if_pos h2] at h
          by_cases hc : (cl0 == '2') = true
          · rw [if_pos hc] at h
            cases h
          · rw [if_neg hc] at h
            obtain ⟨q, hq, hpr⟩ := exceptMap_ok h
            subst hpr
            rcases List.mem_cons.mp hx with hx1 | hx2
            · exact ⟨k, hx1⟩
            · exact ih T q hq x hx2
        · rw [if_neg h2] at h
          by_cases h1 : (tcl == 1) = true
          · rw [if_pos h1] at h
            obtain ⟨q, hq, hpr⟩ := exceptMap_ok h
            subst hpr
            rcases List.mem_cons.mp hx with hx1 | hx2
            · exact ⟨k, hx1⟩
            · exact ih (setKey T k v) q hq x hx2
          · rw [if_neg h1] at h
            exact ih T pr h x hx

/-! ### Pass-level consequences -/

theorem fieldPass_error_iff (cl0 : Char) (fcl : Nat) (D T : Mapping) :
    (∃ e, fieldPass cl0 fcl D T = .error e) ↔
      (cl0 = '2' ∧ fcl = 2 ∧ D.any (fun p => !hasKey T p.1) = true) := by
  unfold fieldPass
  by_cases hpos : fcl > 0
  · rw [if_pos hpos]
    cases hm : missingLoop cl0 fcl D T with
    | error e =>
      have h1 : (∃ e, missingLoop cl0 fcl D T = .error e) := ⟨e, hm⟩
      rw [missingLoop_error_iff] at h1
      simpa using h1
    | ok q =>
      obtain ⟨T1, f1⟩ := q
      have h1 : ¬ (cl0 = '2' ∧ fcl = 2 ∧ D.any (fun p => !hasKey T p.1) = true) := by
        rw [← missingLoop_error_iff]
        rintro ⟨e, he⟩
        rw [hm] at he
        cases he
      dsimp only
      constructor
      · rintro ⟨e, he⟩
        by_cases h13 : (fcl == 1 || fcl == 3) = true
        · rw [if_pos h13] at he
          cases he
        · rw [if_neg h13] at he
          cases he
      · intro hc
        exact absurd hc h1
  · rw [if_neg hpos]
    constructor
    · rintro ⟨e, he⟩
      cases he
    · rintro ⟨-, h2, -⟩
      omega

theorem fieldPass_error_shape {cl0 : Char} {fcl : Nat} {D T : Mapping}
    {e : VErr} (h : fieldPass cl0 fcl D T = .error e) :
    ∃ k, e = .missingFieldErr k := by
  unfold fieldPass at h
  by_cases hpos : fcl > 0
  · rw [if_pos hpos] at h
    cases hm : missingLoop cl0 fcl D T with
    | error e' =>
      rw [hm] at h
      cases h
      exact missingLoop_error_shape cl0 fcl D T e hm
    | ok q =>
      obtain ⟨T1, f1⟩ := q
      rw [hm] at h
      dsimp only at h
      by_cases h13 : (fcl == 1 || fcl == 3) = true
      · rw [if_pos h13] at h
        cases h
      · rw [if_neg h13] at h
        cases h
  · rw [if_neg hpos] at h
    cases h

theorem fieldPass_ok_unique {cl0 cl0' : Char} {fcl : Nat} {D T : Mapping}
    {pr pr' : Mapping × List Finding} (h : fieldPass cl0 fcl D T = .ok pr)
    (h' : fieldPass cl0' fcl D T = .ok pr') : pr = pr' := by
  unfold fieldPass at h h'
  by_cases hpos : fcl > 0
  · rw [if_pos hpos] at h h'
    cases hm : missingLoop cl0 fcl D T with
    | error e =>
      rw [hm] at h
      cases h
    | ok q =>
      cases hm' : missingLoop cl0' fcl D T with
      | error e' =>
        rw [hm'] at h'
        cases h'
      | ok q' =>
        have hqq : q = q' := missingLoop_ok_unique cl0 cl0' fcl D T q q' hm hm'
        subst hqq
        obtain ⟨T1, f1⟩ := q
        rw [hm] at h
        rw [hm'] at h'
        dsimp only at h h'
        by_cases h13 : (fcl == 1 || fcl == 3) = true
        · rw [if_pos h13] at h h'
          cases h
          cases h'
          rfl
        · rw [if_neg h13] at h h'
          cases h
          cases h'
          rfl
  · rw [if_neg hpos] at h h'
    cases h
    cases h'
    rfl

theorem typePass_error_iff (cl0 : Char) (tcl : Nat) (D T : Mapping) :
    (∃ e, typePass cl0 tcl D T = .error e) ↔
      (cl0 = '2' ∧ tcl = 2 ∧ D.any (misfit T) = true) := by
  unfold typePass
  by_cases hpos : tcl > 0
  · rw [if_pos hpos]
    exact typeLoop_error_iff cl0 tcl D T
  · rw [if_neg hpos]
    constructor
    · rintro ⟨e, he⟩
      cases he
    · rintro ⟨-, h2, -⟩
      omega

theorem typePass_error_shape {cl0 : Char} {tcl : Nat} {D T : Mapping}
    {e : VErr} (h : typePass cl0 tcl D T = .error e) :
    ∃ k, e = .typeMismatchErr k := by
  unfold typePass at h
  by_cases hpos : tcl > 0
  · rw [if_pos hpos] at h
    exact typeLoop_error_shape cl0 tcl D T e h
  · rw [if_neg hpos] at h
    cases h

theorem typePass_ok_unique {cl0 cl0' : Char} {tcl : Nat} {D T : Mapping}
    {pr pr' : Mapping × List Finding} (h : typePass cl0 tcl D T = .ok pr)
    (h' : typePass cl0' tcl D T = .ok pr') : pr = pr' := by
  unfold typePass at h h'
  by_cases hpos : tcl > 0
  · rw [if_pos hpos] at h h'
    exact typeLoop_ok_unique cl0 cl0' tcl D T pr pr' h h'
  · rw [if_neg hpos] at h h'
    cases h
    cases h'
    rfl

/-- Field digit 2 in a non-raising mode leaves the mapping untouched and
reports exactly the missing reference keys (no extra-field scan runs). -/
theorem fieldPass_two_value (cl0 : Char) (hc : cl0 ≠ '2') (D T : Mapping) :
    fieldPass cl0 2 D T =
      .ok (T, (D.filter (fun p => !hasKey T p.1)).map
        (fun p => Finding.missingField p.1)) := by
  unfold fieldPass
  rw [missingLoop_two_value cl0 hc]
  rfl

theorem typePass_two_value (cl0 : Char) (hc : cl0 ≠ '2') (D T : Mapping) :
    typePass cl0 2 D T =
      .ok (T, (D.filter (misfit T)).map
        (fun p => Finding.typeMismatch p.1)) := by
  unfold typePass
  rw [typeLoop_two_value cl0 hc]
  rfl

theorem typePass_off_value (cl0 : Char) (tcl : Nat) (h1 : tcl ≠ 1)
    (h2 : tcl ≠ 2) (D T : Mapping) : typePass cl0 tcl D T = .ok (T, []) := by
  unfold typePass
  by_cases hpos : tcl > 0
  · rw [if_pos hpos]
    exact typeLoop_other cl0 tcl h1 h2 D T
  · rw [if_neg hpos]

/-- The findings of a non-raising field pass are missing-field or
extra-field findings only. -/
theorem fieldPass_findings_shape {cl0 : Char} {fcl : Nat} {D T : Mapping}
    {pr : Mapping × List Finding} (h : fieldPass cl0 fcl D T = .ok pr) :
    ∀ x ∈ pr.2, (∃ k, x = Finding.missingField k) ∨
      (∃ k, x = Finding.extraField k) := by
  unfold fieldPass at h
  by_cases hpos : fcl > 0
  · rw [if_pos hpos] at h
    cases hm : missingLoop cl0 fcl D T with
    | error e =>
      rw [hm] at h
      cases h
    | ok q =>
      obtain ⟨T1, f1⟩ := q
      rw [hm] at h
      dsimp only at h
      by_cases h13 : (fcl == 1 || fcl == 3) = true
      · rw [if_pos h13] at h
        cases h
        intro x hx
        rcases List.mem_append.mp hx with hx1 | hx2
        · exact Or.inl (missingLoop_findings_shape cl0 fcl D T (T1, f1) hm x hx1)
        · exact Or.inr (extraLoop_findings_shape fcl D (keysOf T1) T1 x hx2)
      · rw [if_neg h13] at h
        cases h
        intro x hx
        exact Or.inl (missingLoop_findings_shape cl0 fcl D T (T1, f1) hm x hx)
  · rw [if_neg hpos] at h
    cases h
    intro x hx
    simp at hx

theorem fieldPass_one_ok (fcl : Nat) (D T : Mapping) :
    ∃ pr, fieldPass '1' fcl D T = .ok pr := by
  apply exceptOk_of_no_error
  intro e he
  have h := (fieldPass_error_iff '1' fcl D T).mp ⟨e, he⟩
  exact absurd h.1 (by decide)

theorem typePass_one_ok (tcl : Nat) (D T : Mapping) :
    ∃ pr, typePass '1' tcl D T = .ok pr := by
  apply exceptOk_of_no_error
  intro e he
  have h := (typePass_error_iff '1' tcl D T).mp ⟨e, he⟩
  exact absurd h.1 (by decide)

/-- The working mapping after the field pass, as computed in the
non-raising severity mode (the raising mode performs the same mutations
whenever it does not raise, by `fieldPass_ok_unique`). -/
def fieldResult (cl : String) (D T : Mapping) : Mapping :=
  match fieldPass '1' (digitVal cl 2) D T with
  | .ok pr => pr.1
  | .error _ => T

theorem filter_ne_nil_iff {p : Finding → Bool} {l : List Finding} :
    l.filter p ≠ [] ↔ ∃ x ∈ l, p x = true := by
  induction l with
  | nil => simp
  | cons a t ih =>
    by_cases ha : p a = true
    · simp [List.filter_cons, ha]
    · simp only [List.filter_cons, ha, Bool.false_eq_true, if_false, ih,
        List.mem_cons]
      constructor
      · rintro ⟨x, hx, hpx⟩
        exact ⟨x, Or.inr hx, hpx⟩
      · rintro ⟨x, hx | hx, hpx⟩
        · subst hx
          exact absurd hpx ha
        · exact ⟨x, hx, hpx⟩

theorem typePass_findings_shape {cl0 : Char} {tcl : Nat} {D T : Mapping}
    {pr : Mapping × List Finding} (h : typePass cl0 tcl D T = .ok pr) :
    ∀ x ∈ pr.2, ∃ k, x = Finding.typeMismatch k := by
  unfold typePass at h
  by_cases hpos : tcl > 0
  · rw [if_pos hpos] at h
    exact typeLoop_findings_shape cl0 tcl D T pr h
  · rw [if_neg hpos] at h
    cases h
    intro x hx
    simp at hx

/-- The fatal findings are nonempty exactly when the field digit is 2
with a missing reference key, or the type digit is 2 with a mistyped
shared key (checked against the post-field-pass working mapping). -/
theorem fatalFindings_iff (cl : String) (D T : Mapping) :
    fatalFindings cl D T ≠ [] ↔
      ((digitVal cl 2 = 2 ∧ D.any (fun p => !hasKey T p.1) = true) ∨
        (digitVal cl 1 = 2 ∧ D.any (misfit (fieldResult cl D T)) = true)) := by
  obtain ⟨⟨T1, f1⟩, hf⟩ := fieldPass_one_ok (digitVal cl 2) D T
  obtain ⟨⟨T2, f2⟩, ht⟩ := typePass_one_ok (digitVal cl 1) D T1
  have hres : fieldResult cl D T = T1 := by
    unfold fieldResult
    rw [hf]
  have hfind : findingsOf cl D T = f1 ++ f2 := by
    unfold findingsOf
    rw [hf]
    dsimp only
    rw [ht]
  unfold fatalFindings
  rw [hfind, hres, List.filter_append]
  have happ : ∀ (a b : List Finding), a ++ b ≠ [] ↔ a ≠ [] ∨ b ≠ [] := by
    intro a b
    rw [ne_eq, List.append_eq_nil]
    tauto
  rw [happ, filter_ne_nil_iff, filter_ne_nil_iff]
  have hleft : (∃ x ∈ f1, x.isFatal cl = true) ↔
      (digitVal cl 2 = 2 ∧ D.any (fun p => !hasKey T p.1) = true) := by
    by_cases hd2 : digitVal cl 2 = 2
    · rw [hd2] at hf
      have hval := fieldPass_two_value '1' (by decide) D T
      rw [hf] at hval
      have hvf : f1 = (List.filter (fun p => !hasKey T p.1) D).map
          (fun p => Finding.missingField p.1) :=
        congrArg Prod.snd (Except.ok.inj hval)
      constructor
      · rintro ⟨x, hx, -⟩
        refine ⟨hd2, ?_⟩
        rw [hvf] at hx
        rcases List.mem_map.mp hx with ⟨p, hp, -⟩
        rcases List.mem_filter.mp hp with ⟨hpD, hpmiss⟩
        exact List.any_eq_true.mpr ⟨p, hpD, hpmiss⟩
      · rintro ⟨-, hany⟩
        rcases List.any_eq_true.mp hany with ⟨p, hpD, hpmiss⟩
        refine ⟨Finding.missingField p.1, ?_, ?_⟩
        · rw [hvf]
          exact List.mem_map.mpr ⟨p, List.mem_filter.mpr ⟨hpD, hpmiss⟩, rfl⟩
        · simp [Finding.isFatal, hd2]
    · constructor
      · rintro ⟨x, hx, hfat⟩
        rcases fieldPass_findings_shape hf x hx with ⟨k, hk⟩ | ⟨k, hk⟩
        · subst hk
          have h22 : (digitVal cl 2 == 2) = true := hfat
          exact absurd (by simpa using h22) hd2
        · subst hk
          cases hfat
      · rintro ⟨hd2', -⟩
        exact absurd hd2' hd2
  have hright : (∃ x ∈ f2, x.isFatal cl = true) ↔
      (digitVal cl 1 = 2 ∧ D.any (misfit T1) = true) := by
    by_cases hd1 : digitVal cl 1 = 2
    · rw [hd1] at ht
      have hval := typePass_two_value '1' (by decide) D T1
      rw [ht] at hval
      have hvf : f2 = (List.filter (misfit T1) D).map
          (fun p => Finding.typeMismatch p.1) :=
        congrArg Prod.snd (Except.ok.inj hval)
      constructor
      · rintro ⟨x, hx, -⟩
        refine ⟨hd1, ?_⟩
        rw [hvf] at hx
        rcases List.mem_map.mp hx with ⟨p, hp, -⟩
        rcases List.mem_filter.mp hp with ⟨hpD, hpmis⟩
        exact List.any_eq_true.mpr ⟨p, hpD, hpmis⟩
      · rintro ⟨-, hany⟩
        rcases List.any_eq_true.mp hany with ⟨p, hpD, hpmis⟩
        refine ⟨Finding.typeMismatch p.1, ?_, ?_⟩
        · rw [hvf]
          exact List.mem_map.mpr ⟨p, List.mem_filter.mpr ⟨hpD, hpmis⟩, rfl⟩
        · simp [Finding.isFatal, hd1]
    · constructor
      · rintro ⟨x, hx, hfat⟩
        obtain ⟨k, hk⟩ := typePass_findings_shape ht x hx
        subst hk
        have h22 : (digitVal cl 1 == 2) = true := hfat
        exact absurd (by simpa using h22) hd1
      · rintro ⟨hd1', -⟩
        exact absurd hd1' hd1
  rw [hleft, hright]

theorem saveConfigModel_error_shape {path : String} {cfg : Mapping}
    {fs : FS} {e : VErr} (h : saveConfigModel path cfg fs = .error e) :
    e = .saveError := by
  unfold saveConfigModel at h
  by_cases hs : hasSupportedExt path = true
  · rw [if_pos hs] at h
    cases h
  · rw [if_neg hs] at h
    cases h
    rfl

/-- The recovery block only raises file-system errors, never
validation-policy ones. -/
theorem recoveryStep_error_shape {r : Char} {path : String} {D T : Mapping}
    {fs : FS} {e : VErr} (h : recoveryStep r path D T fs = .error e) :
    e = .fileNotFound ∨ e = .saveError := by
  unfold recoveryStep at h
  by_cases hr : (r == '1' || r == '2') = true
  · rw [if_pos hr] at h
    cases hg : fsGet fs path with
    | none =>
      rw [hg] at h
      cases h
      exact Or.inl rfl
    | some content =>
      rw [hg] at h
      dsimp only at h
      cases hs : saveConfigModel path (if (r == '2') = true then D else T)
          (fsSet fs (path ++ ".backup") content) with
      | error e' =>
        rw [hs] at h
        cases h
        exact Or.inr (saveConfigModel_error_shape hs)
      | ok fs2 =>
        rw [hs] at h
        cases h
  · rw [if_neg hr] at h
    cases h

/-- Claim C2 (amended): severity digit 0 skips validation entirely and
never raises; severity digit 1 can only surface file-system errors, never
a validation error; severity digit 2 raises a validation error (missing
field `ValueError` or type `TypeError`) if and only if the set of fatal
findings — missing fields under field digit 2, type mismatches under type
digit 2 — is non-empty.  (The claim's "findings set" is corrected to the
fatal subset: warning-level findings such as extra fields never raise.) -/
theorem c2_severity_gating (cl : String) (D T : Mapping) (path : String)
    (cfg0 : Mapping) (fs : FS) :
    (clDigit cl 0 = '0' →
      validateConfigModel cl D T path cfg0 fs = .ok (true, cfg0, fs)) ∧
    (clDigit cl 0 = '1' →
      ∀ e, validateConfigModel cl D T path cfg0 fs = .error e →
        e.isValidationErr = false) ∧
    (clDigit cl 0 = '2' →
      ((∃ e, validateConfigModel cl D T path cfg0 fs = .error e ∧
          e.isValidationErr = true) ↔ fatalFindings cl D T ≠ [])) := by
  refine ⟨?_, ?_, ?_⟩
  · intro h0
    unfold validateConfigModel
    rw [h0]
    rfl
  · intro h1 e he
    unfold validateConfigModel at he
    have hcond : (clDigit cl 0 == '0') = false := by
      rw [h1]
      rfl
    rw [hcond] at he
    simp only [Bool.false_eq_true, if_false] at he
    cases hfp : fieldPass (clDigit cl 0) (digitVal cl 2) D T with
    | error ef =>
      have hc := (fieldPass_error_iff (clDigit cl 0) (digitVal cl 2) D T).mp
        ⟨ef, hfp⟩
      rw [h1] at hc
      exact absurd hc.1 (by decide)
    | ok pr =>
      obtain ⟨T1, f1⟩ := pr
      rw [hfp] at he
      dsimp only at he
      cases htp : typePass (clDigit cl 0) (digitVal cl 1) D T1 with
      | error et =>
        have hc := (typePass_error_iff (clDigit cl 0) (digitVal cl 1) D T1).mp
          ⟨et, htp⟩
        rw [h1] at hc
        exact absurd hc.1 (by decide)
      | ok pr2 =>
        obtain ⟨T2, f2⟩ := pr2
        rw [htp] at he
        dsimp only at he
        cases hrs : recoveryStep (clDigit cl 3) path D T2 fs with
        | error er =>
          rw [hrs] at he
          cases he
          rcases recoveryStep_error_shape hrs with h | h <;> subst h <;> rfl
        | ok res =>
          obtain ⟨cfgF, fs2⟩ := res
          rw [hrs] at he
          cases he
  · intro h2
    have hcond : (clDigit cl 0 == '0') = false := by
      rw [h2]
      rfl
    rw [fatalFindings_iff]
    constructor
    · rintro ⟨e, he, hval⟩
      unfold validateConfigModel at he
      rw [hcond] at he
      simp only [Bool.false_eq_true, if_false] at he
      cases hfp : fieldPass (clDigit cl 0) (digitVal cl 2) D T with
      | error ef =>
        have hc := (fieldPass_error_iff (clDigit cl 0) (digitVal cl 2) D T).mp
          ⟨ef, hfp⟩
        exact Or.inl ⟨hc.2.1, hc.2.2⟩
      | ok pr =>
        obtain ⟨T1, f1⟩ := pr
        rw [hfp] at he
        dsimp only at he
        cases htp : typePass (clDigit cl 0) (digitVal cl 1) D T1 with
        | error et =>
          have hc := (typePass_error_iff (clDigit cl 0) (digitVal cl 1) D T1).mp
            ⟨et, htp⟩
          refine Or.inr ⟨hc.2.1, ?_⟩
          obtain ⟨pr', hpr'⟩ := fieldPass_one_ok (digitVal cl 2) D T
          have hT1 : fieldResult cl D T = T1 := by
            unfold fieldResult
            rw [hpr', (fieldPass_ok_unique hpr' hfp : pr' = (T1, f1))]
          rw [hT1]
          exact hc.2.2
        | ok pr2 =>
          obtain ⟨T2, f2⟩ := pr2
          rw [htp] at he
          dsimp only at he
          cases hrs : recoveryStep (clDigit cl 3) path D T2 fs with
          | error er =>
            rw [hrs] at he
            cases he
            rcases recoveryStep_error_shape hrs with h | h <;> subst h <;>
              cases hval
          | ok res =>
            obtain ⟨cfgF, fs2⟩ := res
            rw [hrs] at he
            cases he
    · intro hfatal
      by_cases hA : digitVal cl 2 = 2 ∧ D.any (fun p => !hasKey T p.1) = true
      · obtain ⟨ef, hef⟩ :=
          (fieldPass_error_iff (clDigit cl 0) (digitVal cl 2) D T).mpr
            ⟨h2, hA.1, hA.2⟩
        obtain ⟨k, hk⟩ := fieldPass_error_shape hef
        refine ⟨ef, ?_, by rw [hk]; rfl⟩
        unfold validateConfigModel
        rw [hcond]
        simp only [Bool.false_eq_true, if_false]
        rw [hef]
      · rcases hfatal with hA' | ⟨hd1, hany⟩
        · exact absurd hA' hA
        · have hfok : ∀ e, fieldPass (clDigit cl 0) (digitVal cl 2) D T ≠ .error e := by
            intro e he'
            exact hA (And.right
              ((fieldPass_error_iff (clDigit cl 0) (digitVal cl 2) D T).mp ⟨e, he'⟩))
          obtain ⟨⟨T1, f1⟩, hfp⟩ :=
            exceptOk_of_no_error _ hfok
          obtain ⟨pr', hpr'⟩ := fieldPass_one_ok (digitVal cl 2) D T
          have hT1 : fieldResult cl D T = T1 := by
            unfold fieldResult
            rw [hpr', (fieldPass_ok_unique hpr' hfp : pr' = (T1, f1))]
          rw [hT1] at hany
          obtain ⟨et, het⟩ :=
            (typePass_error_iff (clDigit cl 0) (digitVal cl 1) D T1).mpr
              ⟨h2, hd1, hany⟩
          obtain ⟨k, hk⟩ := typePass_error_shape het
          refine ⟨et, ?_, by rw [hk]; rfl⟩
          unfold validateConfigModel
          rw [hcond]
          simp only [Bool.false_eq_true, if_false]
          rw [hfp]
          dsimp only
          rw [het]

/-- Claim C2, counterexample to the claim as stated: with check level
`"2010"` (severity 2, field digit 1), reference `{a: 1}` and working
mapping `{a: 1, x: 2}`, the findings set is non-empty (an extra-field
warning) yet validation returns normally — under severity digit 2 a
non-empty findings set does not imply a raise. -/
theorem c2_counterexample :
    findingsOf "2010" [("a", Value.int 1)]
        [("a", Value.int 1), ("x", Value.int 2)] = [Finding.extraField "x"] ∧
    validateConfigModel "2010" [("a", Value.int 1)]
        [("a", Value.int 1), ("x", Value.int 2)] "a.yaml" [] [("a.yaml", [])] =
      .ok (true, [("a", Value.int 1), ("x", Value.int 2)], [("a.yaml", [])]) ∧
    [Finding.extraField "x"] ≠ ([] : List Finding) :=
  ⟨rfl, rfl, by decide⟩

/-- Claim C2, witness: the skip clause at a concrete severity-0 level, and
the severity-2 equivalence at a concrete level with a type-digit-2
mismatch. -/
theorem c2_severity_gating_witness :
    validateConfigModel "0000" [] [("a", Value.int 1)] "a.yaml" [] [] =
      .ok (true, [], []) ∧
    ((∃ e, validateConfigModel "2200" [("a", Value.int 1)]
        [("a", Value.str "s")] "a.yaml" [] [] = .error e ∧
        e.isValidationErr = true) ↔
      fatalFindings "2200" [("a", Value.int 1)] [("a", Value.str "s")] ≠ []) :=
  ⟨(c2_severity_gating "0000" [] [("a", Value.int 1)] "a.yaml" [] []).1 rfl,
    (c2_severity_gating "2200" [("a", Value.int 1)] [("a", Value.str "s")]
      "a.yaml" [] []).2.2 rfl⟩

/-- Claim C3 (code bug): with recovery digit 2 the recovery block does
save the reference, but line 165 (`self.config = temp_config`) then
reinstates the working mapping in memory and the constructor's final
`save_config` (line 68) persists it over the just-recovered file.  With
reference `{b: 2}` and on-disk mapping `{a: 1}`, the final in-memory and
persisted mapping is `{a: 1}` — not deep-equal to the reference. -/
theorem c3_recovery_digit2_clobbered :
    validateThenSave "1002" [("b", Value.int 2)] [("a", Value.int 1)] "a.yaml"
        [("a", Value.int 1)] [("a.yaml", [("a", Value.int 1)])] =
      .ok ([("a", Value.int 1)],
        [("a.yaml", [("a", Value.int 1)]),
          ("a.yaml.backup", [("a", Value.int 1)])]) ∧
    ([("a", Value.int 1)] : Mapping) ≠ [("b", Value.int 2)] :=
  ⟨rfl, by decide⟩

/-- Claim C4 (code bug): every recovery copies the file to the single
fixed name `path ++ ".backup"` (line 154).  Two successive recoveries on
the same path, with the file content changed in between, leave only one
backup file whose content is the second snapshot — the first backup is
overwritten, with no sequential numbering. -/
theorem c4_backup_overwritten :
    validateConfigModel "1001" [] [("k", Value.int 1)] "c.yaml"
        [("k", Value.int 1)] [("c.yaml", [("k", Value.int 1)])] =
      .ok (true, [("k", Value.int 1)],
        [("c.yaml", [("k", Value.int 1)]),
          ("c.yaml.backup", [("k", Value.int 1)])]) ∧
    validateConfigModel "1001" [] [("k", Value.int 2)] "c.yaml"
        [("k", Value.int 2)]
        [("c.yaml", [("k", Value.int 2)]),
          ("c.yaml.backup", [("k", Value.int 1)])] =
      .ok (true, [("k", Value.int 2)],
        [("c.yaml", [("k", Value.int 2)]),
          ("c.yaml.backup", [("k", Value.int 2)])]) ∧
    ([("k", Value.int 1)] : Mapping) ≠ [("k", Value.int 2)] :=
  ⟨rfl, rfl, by decide⟩

/-- Claim C6, counterexample: with recovery digit 0 (check level "1010",
field digit 1), an empty original mapping against reference `{a: 1}` ends
with in-memory and persisted mapping `{a: 1}` — the corrected mapping is
adopted and persisted, not discarded in favor of the original. -/
theorem c6_counterexample :
    validateThenSave "1010" [("a", Value.int 1)] [] "a.yaml" []
        [("a.yaml", [])] =
      .ok ([("a", Value.int 1)], [("a.yaml", [("a", Value.int 1)])]) ∧
    ([("a", Value.int 1)] : Mapping) ≠ [] :=
  ⟨rfl, by decide⟩

/-- Claim C6 (amended): recovery digit 0 writes no backup and performs no
recovery save — `validate_config` leaves the file system untouched — but
the corrected working mapping (output of the field and type passes) still
becomes the in-memory config via line 165, rather than being discarded;
the constructor then persists it. -/
theorem c6_recovery0_adopts_corrected (cl : String) (D T : Mapping)
    (path : String) (cfg0 : Mapping) (fs : FS) (h3 : clDigit cl 3 = '0')
    (h0 : clDigit cl 0 ≠ '0') (b : Bool) (cfgF : Mapping) (fs2 : FS)
    (hrun : validateConfigModel cl D T path cfg0 fs = .ok (b, cfgF, fs2)) :
    fs2 = fs ∧ b = true ∧
    ∃ pr1 pr2, fieldPass (clDigit cl 0) (digitVal cl 2) D T = .ok pr1 ∧
      typePass (clDigit cl 0) (digitVal cl 1) D pr1.1 = .ok pr2 ∧
      cfgF = pr2.1 := by
  unfold validateConfigModel at hrun
  have hcond : (clDigit cl 0 == '0') = false := by simpa using h0
  rw [hcond] at hrun
  simp only [Bool.false_eq_true, if_false] at hrun
  cases hfp : fieldPass (clDigit cl 0) (digitVal cl 2) D T with
  | error ef =>
    rw [hfp] at hrun
    cases hrun
  | ok pr1 =>
    obtain ⟨T1, f1⟩ := pr1
    rw [hfp] at hrun
    dsimp only at hrun
    cases htp : typePass (clDigit cl 0) (digitVal cl 1) D T1 with
    | error et =>
      rw [htp] at hrun
      cases hrun
    | ok pr2 =>
      obtain ⟨T2, f2⟩ := pr2
      rw [htp] at hrun
      dsimp only at hrun
      have hrec : recoveryStep (clDigit cl 3) path D T2 fs = .ok (T2, fs) := by
        unfold recoveryStep
        rw [h3]
        rfl
      rw [hrec] at hrun
      dsimp only at hrun
      obtain ⟨hb, hcf, hfs⟩ :
          true = b ∧ T2 = cfgF ∧ fs = fs2 := by
        have h1 := Except.ok.inj hrun
        exact ⟨congrArg Prod.fst h1,
          congrArg Prod.fst (congrArg Prod.snd h1),
          congrArg Prod.snd (congrArg Prod.snd h1)⟩
      exact ⟨hfs.symm, hb.symm,
        ⟨(T1, f1), (T2, f2), rfl, htp, hcf.symm⟩⟩

/-- Claim C6, witness: the amended theorem at check level "1010" with
reference `{a: 1}` and empty working mapping. -/
theorem c6_recovery0_witness :
    ([] : FS) = [] ∧ true = true ∧
    ∃ pr1 pr2, fieldPass '1' 1 [("a", Value.int 1)] [] = .ok pr1 ∧
      typePass '1' 0 [("a", Value.int 1)] pr1.1 = .ok pr2 ∧
      [("a", Value.int 1)] = pr2.1 :=
  c6_recovery0_adopts_corrected "1010" [("a", Value.int 1)] [] "a.yaml" [] []
    rfl (by decide) true [("a", Value.int 1)] [] rfl

theorem extraLoop_nilD (fcl : Nat) :
    ∀ (ks : List String) (T : Mapping),
      (extraLoop fcl [] ks T).2 = ks.map Finding.extraField := by
  intro ks
  induction ks with
  | nil => intro T; rfl
  | cons k rest ih =>
    intro T
    rw [extraLoop_cons]
    have hk : hasKey ([] : Mapping) k = false := rfl
    rw [hk]
    simp [ih]

theorem typePass_nilD (cl0 : Char) (tcl : Nat) (X : Mapping) :
    typePass cl0 tcl [] X = .ok (X, []) := by
  unfold typePass
  by_cases hpos : tcl > 0
  · rw [if_pos hpos]
    rfl
  · rw [if_neg hpos]

/-- Claim C7, counterexample: with no `recover_path` the reference is
empty, and validation with field digit 1 then reports every key of the
working mapping as an extra field — the findings set is not empty. -/
theorem c7_counterexample :
    loadDefaultModel none [] [] = .ok [] ∧
    findingsOf "1010" [] [("a", Value.int 1)] = [Finding.extraField "a"] ∧
    [Finding.extraField "a"] ≠ ([] : List Finding) :=
  ⟨rfl, rfl, by decide⟩

/-- Claim C7 (amended): with no locator the fetched reference is an empty
mapping, and validation then reports no missing-field and no type-mismatch
finding; but it does not report "no findings at all": with field digit 1
or 3 every key of the working mapping is reported as an extra field (digit
3 also removes them); with any other field digit the findings are empty. -/
theorem c7_no_locator (cl : String) (T : Mapping) (fs : FS) (net : Net) :
    loadDefaultModel none fs net = .ok [] ∧
    findingsOf cl [] T =
      (if (digitVal cl 2 == 1 || digitVal cl 2 == 3) = true then
        (keysOf T).map Finding.extraField else []) := by
  constructor
  · rfl
  · unfold findingsOf
    have hml : missingLoop '1' (digitVal cl 2) [] T = .ok (T, []) := rfl
    by_cases h13 : (digitVal cl 2 == 1 || digitVal cl 2 == 3) = true
    · have hpos : digitVal cl 2 > 0 := by
        rcases Bool.or_eq_true_iff.mp h13 with h | h
        · have : digitVal cl 2 = 1 := by simpa using h
          omega
        · have : digitVal cl 2 = 3 := by simpa using h
          omega
      have hfp : fieldPass '1' (digitVal cl 2) [] T =
          .ok ((extraLoop (digitVal cl 2) [] (keysOf T) T).1,
            [] ++ (extraLoop (digitVal cl 2) [] (keysOf T) T).2) := by
        unfold fieldPass
        rw [if_pos hpos, hml]
        dsimp only
        rw [if_pos h13]
      rw [hfp]
      dsimp only
      rw [typePass_nilD]
      dsimp only
      rw [if_pos h13, extraLoop_nilD]
      simp
    · have hfp : fieldPass '1' (digitVal cl 2) [] T = .ok (T, []) := by
        unfold fieldPass
        by_cases hpos : digitVal cl 2 > 0
        · rw [if_pos hpos, hml]
          dsimp only
          rw [if_neg h13]
        · rw [if_neg hpos]
      rw [hfp]
      dsimp only
      rw [typePass_nilD]
      dsimp only
      rw [if_neg h13]
      rfl

/-! ### One-step equations for the interpreter -/

theorem run_construct_succ (net : Net) (fuel : Nat) (path : String)
    (tyArg rp : Option String) (cl : String) (fs : FS) :
    run net (fuel + 1) (.construct path tyArg rp cl fs) =
      (if !hasSupportedExt path && clDigit cl 0 == '2' then
        some (.error .unsupportedType)
      else
        match loadConfigModel path fs with
        | .error e => some (.error e)
        | .ok cfg =>
          match resolveType path tyArg with
          | none => finishSave (initInst path cfg) fs
          | some _ =>
            match run net fuel (.validate (initInst path cfg) fs) with
            | none => none
            | some (.error e) => some (.error e)
            | some (.ok (.validated b i2 fs2)) =>
              if b == false && clDigit cl 0 == '2' then
                some (.error .validationFailed)
              else finishSave i2 fs2
            | some (.ok (.constructed _ _)) => none) := rfl

theorem run_validate_succ (net : Net) (fuel : Nat) (i : Inst) (fs : FS) :
    run net (fuel + 1) (.validate i fs) =
      (if clDigit i.checkLevel 0 == '0' then
        some (.ok (.validated true i fs))
      else
        match loadDefaultModel i.recoverPath fs net with
        | .error e => some (.error e)
        | .ok D =>
          match run net fuel (.construct i.path none none "0000" fs) with
          | none => none
          | some (.error e) => some (.error e)
          | some (.ok (.constructed tempInst fs2)) =>
            match validateConfigModel i.checkLevel D tempInst.configV i.path
                i.configV fs2 with
            | .error e => some (.error e)
            | .ok (b, cfgF, fs3) =>
              some (.ok (.validated b { i with configV := cfgF } fs3))
          | some (.ok (.validated _ _ _)) => none) := rfl

theorem resolveType_supported {path : String}
    (h : hasSupportedExt path = true) (tyArg : Option String) :
    ∃ t, resolveType path tyArg = some t := by
  unfold resolveType
  by_cases h1 : strEnds path ".ini" = true
  · rw [if_pos h1]
    exact ⟨_, rfl⟩
  · rw [if_neg h1]
    by_cases h2 : strEnds path ".toml" = true
    · rw [if_pos h2]
      exact ⟨_, rfl⟩
    · rw [if_neg h2]
      by_cases h3 : (strEnds path ".yaml" || strEnds path ".yml") = true
      · rw [if_pos h3]
        exact ⟨_, rfl⟩
      · exfalso
        unfold hasSupportedExt at h
        rcases Bool.or_eq_true_iff.mp h with h' | hy
        · rcases Bool.or_eq_true_iff.mp h' with h'' | hml
          · rcases Bool.or_eq_true_iff.mp h'' with hini | htoml
            · exact h1 hini
            · exact h2 htoml
          · exact h3 (Bool.or_eq_true_iff.mpr (Or.inl hml))
        · exact h3 (Bool.or_eq_true_iff.mpr (Or.inr hy))

theorem resolveType_unsupported {path : String}
    (h : hasSupportedExt path = false) :
    resolveType path none = none := by
  unfold hasSupportedExt at h
  have h1 : strEnds path ".ini" = false := by
    cases hx : strEnds path ".ini"
    · rfl
    · rw [hx] at h
      simp at h
  have h2 : strEnds path ".toml" = false := by
    cases hx : strEnds path ".toml"
    · rfl
    · rw [hx] at h
      simp at h
  have h3 : strEnds path ".yaml" = false := by
    cases hx : strEnds path ".yaml"
    · rfl
    · rw [hx] at h
      simp at h
  have h4 : strEnds path ".yml" = false := by
    cases hx : strEnds path ".yml"
    · rfl
    · rw [hx] at h
      simp at h
  unfold resolveType
  rw [h1, h2, h3, h4]
  rfl

theorem loadConfigModel_supported {path : String}
    (h : hasSupportedExt path = true) (fs : FS) :
    ∃ cfg, loadConfigModel path fs = .ok cfg := by
  unfold loadConfigModel
  cases hg : fsGet fs path with
  | none => exact ⟨[], rfl⟩
  | some m =>
    refine ⟨m, ?_⟩
    dsimp only
    rw [if_pos h]

/-- The heart of claim C1: on any supported-extension path both
construction and (class-default) validation exhaust every fuel bound —
the re-entrant construction recurses forever because the inner instance
again reads the class attribute `check_level = "1111"`. -/
theorem run_diverges (net : Net) :
    ∀ fuel : Nat,
      (∀ (path : String) (tyArg rp : Option String) (cl : String) (fs : FS),
        hasSupportedExt path = true →
        run net fuel (.construct path tyArg rp cl fs) = none) ∧
      (∀ (i : Inst) (fs : FS), hasSupportedExt i.path = true →
        i.checkLevelAttr = none → i.recoverPathAttr = none →
        run net fuel (.validate i fs) = none) := by
  intro fuel
  induction fuel with
  | zero => exact ⟨fun _ _ _ _ _ _ => rfl, fun _ _ _ _ _ => rfl⟩
  | succ n ih =>
    refine ⟨?_, ?_⟩
    · intro path tyArg rp cl fs hsup
      rw [run_construct_succ]
      have hneg : (!hasSupportedExt path && clDigit cl 0 == '2') = false := by
        rw [hsup]
        rfl
      rw [hneg]
      simp only [Bool.false_eq_true, if_false]
      obtain ⟨cfg, hload⟩ := loadConfigModel_supported hsup fs
      rw [hload]
      dsimp only
      obtain ⟨t, hty⟩ := resolveType_supported hsup tyArg
      rw [hty]
      dsimp only
      rw [ih.2 (initInst path cfg) fs hsup rfl rfl]
    · intro i fs hsup hcl hrp
      rw [run_validate_succ]
      have hlevel : i.checkLevel = classCheckLevel := by
        unfold Inst.checkLevel
        rw [hcl]
        rfl
      have hcond : (clDigit i.checkLevel 0 == '0') = false := by
        rw [hlevel]
        rfl
      rw [hcond]
      simp only [Bool.false_eq_true, if_false]
      have hrpn : i.recoverPath = none := by
        unfold Inst.recoverPath
        rw [hrp]
        rfl
      rw [hrpn]
      dsimp only [loadDefaultModel]
      rw [ih.1 i.path none none "0000" fs hsup]

/-- Claim C1 (code bug): constructing `Config` on a `.toml` path never
terminates, for any fuel bound, file system, network, `type` argument,
`recover_path` argument and `check_level` argument.  The claim expects the
internal `Config(self.path, check_level="0000")` to run with validation
disabled, but `__init__` never assigns `self.check_level`, so the inner
instance validates with the class default `"1111"` and constructs yet
another inner `Config`, without bound. -/
theorem c1_construction_diverges (net : Net) (fuel : Nat) (fs : FS)
    (tyArg rp : Option String) (cl : String) :
    run net fuel (.construct "app.toml" tyArg rp cl fs) = none :=
  (run_diverges net fuel).1 "app.toml" tyArg rp cl fs (by decide)

/-- Both return statements of `validate_config` (lines 114 and 166)
return `True`. -/
theorem validateConfigModel_true {cl : String} {D T : Mapping}
    {path : String} {cfg0 : Mapping} {fs : FS} {b : Bool} {m : Mapping}
    {fs2 : FS}
    (h : validateConfigModel cl D T path cfg0 fs = .ok (b, m, fs2)) :
    b = true := by
  unfold validateConfigModel at h
  by_cases hc : (clDigit cl 0 == '0') = true
  · rw [if_pos hc] at h
    exact (congrArg Prod.fst (Except.ok.inj h)).symm
  · rw [if_neg hc] at h
    cases hfp : fieldPass (clDigit cl 0) (digitVal cl 2) D T with
    | error ef =>
      rw [hfp] at h
      cases h
    | ok pr1 =>
      obtain ⟨T1, f1⟩ := pr1
      rw [hfp] at h
      dsimp only at h
      cases htp : typePass (clDigit cl 0) (digitVal cl 1) D T1 with
      | error et =>
        rw [htp] at h
        cases h
      | ok pr2 =>
        obtain ⟨T2, f2⟩ := pr2
        rw [htp] at h
        dsimp only at h
        cases hrs : recoveryStep (clDigit cl 3) path D T2 fs with
        | error er =>
          rw [hrs] at h
          cases h
        | ok res =>
          obtain ⟨cfgF, fs3⟩ := res
          rw [hrs] at h
          dsimp only at h
          exact (congrArg Prod.fst (Except.ok.inj h)).symm

/-- Claim C10: whenever `validate_config` returns normally it returns
`True` — it never returns `False`, so the constructor's branch that logs
or raises "Config file validation failed." on a `False` result is
unreachable. -/
theorem c10_validate_returns_true (net : Net) (fuel : Nat) (i : Inst)
    (fs : FS) (r : Outcome)
    (h : run net fuel (.validate i fs) = some (.ok r)) :
    ∃ i2 fs2, r = .validated true i2 fs2 := by
  cases fuel with
  | zero => cases h
  | succ n =>
    rw [run_validate_succ] at h
    by_cases hc : (clDigit i.checkLevel 0 == '0') = true
    · rw [if_pos hc] at h
      cases h
      exact ⟨i, fs, rfl⟩
    · rw [if_neg hc] at h
      cases hld : loadDefaultModel i.recoverPath fs net with
      | error e =>
        rw [hld] at h
        cases h
      | ok D =>
        rw [hld] at h
        dsimp only at h
        cases hrun : run net n (.construct i.path none none "0000" fs) with
        | none =>
          rw [hrun] at h
          cases h
        | some res =>
          cases res with
          | error e =>
            rw [hrun] at h
            cases h
          | ok out =>
            cases out with
            | validated b i2 fs2 =>
              rw [hrun] at h
              cases h
            | constructed tempInst fs2 =>
              rw [hrun] at h
              dsimp only at h
              cases hvm : validateConfigModel i.checkLevel D
                  tempInst.configV i.path i.configV fs2 with
              | error e =>
                rw [hvm] at h
                cases h
              | ok res2 =>
                obtain ⟨b, cfgF, fs3⟩ := res2
                rw [hvm] at h
                dsimp only at h
                have hb : b = true := validateConfigModel_true hvm
                cases h
                exact ⟨{ i with configV := cfgF }, fs3, by rw [hb]⟩

/-- Claim C10, witness: a concrete instance whose stored check level
starts with `'0'` makes `validate_config` return `True` at once. -/
theorem c10_validate_returns_true_witness :
    ∃ i2 fs2, Outcome.validated true
        { path := "a.toml", configV := [], checkLevelAttr := some "0000",
          recoverPathAttr := none } ([] : FS) = .validated true i2 fs2 :=
  c10_validate_returns_true [] 1
    { path := "a.toml", configV := [], checkLevelAttr := some "0000" } []
    (.validated true
      { path := "a.toml", configV := [], checkLevelAttr := some "0000" } [])
    rfl

/-- Claim C9: `__init__` stores neither `check_level` nor `recover_path`
on the instance, so the state `validate_config` (and through it
`load_default_config`) runs on always carries the class defaults `"1111"`
and `None`; consequently two constructor calls on the same
supported-extension path and file system that differ only in those two
arguments behave identically — the arguments' only other read is the
severity gate inside `__init__` itself. -/
theorem c9_ctor_ignores_args :
    (∀ (path : String) (cfg : Mapping),
      (initInst path cfg).checkLevel = classCheckLevel ∧
      (initInst path cfg).recoverPath = none) ∧
    (∀ (net : Net) (fuel : Nat) (path : String) (tyArg : Option String)
      (rp rp' : Option String) (cl cl' : String) (fs : FS),
      hasSupportedExt path = true →
      run net fuel (.construct path tyArg rp cl fs) =
        run net fuel (.construct path tyArg rp' cl' fs)) := by
  refine ⟨fun path cfg => ⟨rfl, rfl⟩, ?_⟩
  intro net fuel path tyArg rp rp' cl cl' fs hsup
  rw [(run_diverges net fuel).1 path tyArg rp cl fs hsup,
    (run_diverges net fuel).1 path tyArg rp' cl' fs hsup]

/-- Claim C9, witness: concrete instantiation on a `.yaml` path with two
maximally different `check_level` and `recover_path` argument pairs. -/
theorem c9_ctor_ignores_args_witness :
    (initInst "a.yaml" []).checkLevel = classCheckLevel ∧
    (initInst "a.yaml" []).recoverPath = none ∧
    run [] 3 (.construct "a.yaml" none none "2222" []) =
      run [] 3 (.construct "a.yaml" none (some "d.yaml") "0000" []) :=
  ⟨(c9_ctor_ignores_args.1 "a.yaml" []).1,
    (c9_ctor_ignores_args.1 "a.yaml" []).2,
    c9_ctor_ignores_args.2 [] 3 "a.yaml" none none (some "d.yaml")
      "2222" "0000" [] (by decide)⟩

/-- Claim C8, counterexample: with an unsupported extension and severity
digit 0 construction does NOT proceed to completion with an empty
mapping — on an absent file it raises the unsupported-type `ValueError`
from `save_config`. -/
theorem c8_counterexample :
    run [] 2 (.construct "app.txt" none none "0000" []) =
      some (.error .saveError) := rfl

/-- Claim C8 (amended): on a path with an unsupported extension (and no
explicit `type` argument), severity digit 2 makes construction fail fast
with the unsupported-type error; any other severity digit logs a warning
and proceeds past the extension gate, but construction still always
fails: `load_config` raises if the file exists, and otherwise the final
`save_config` raises on the unsupported extension. -/
theorem c8_unsupported_ext (net : Net) (fuel : Nat) (path : String)
    (rp : Option String) (cl : String) (fs : FS)
    (hsup : hasSupportedExt path = false) :
    (clDigit cl 0 = '2' →
      run net (fuel + 1) (.construct path none rp cl fs) =
        some (.error .unsupportedType)) ∧
    (clDigit cl 0 ≠ '2' →
      ((∃ m, fsGet fs path = some m) →
        run net (fuel + 1) (.construct path none rp cl fs) =
          some (.error .loadError)) ∧
      (fsGet fs path = none →
        run net (fuel + 1) (.construct path none rp cl fs) =
          some (.error .saveError))) := by
  constructor
  · intro h2
    rw [run_construct_succ]
    have hcond : (!hasSupportedExt path && clDigit cl 0 == '2') = true := by
      rw [hsup, h2]
      rfl
    rw [hcond]
    rfl
  · intro h2
    have hcond : (!hasSupportedExt path && clDigit cl 0 == '2') = false := by
      rw [hsup]
      have : (clDigit cl 0 == '2') = false := by simpa using h2
      rw [this]
      rfl
    constructor
    · rintro ⟨m, hm⟩
      rw [run_construct_succ, hcond]
      simp only [Bool.false_eq_true, if_false]
      have hload : loadConfigModel path fs = .error .loadError := by
        unfold loadConfigModel
        rw [hm]
        dsimp only
        rw [if_neg (by simp [hsup])]
      rw [hload]
    · intro hm
      rw [run_construct_succ, hcond]
      simp only [Bool.false_eq_true, if_false]
      have hload : loadConfigModel path fs = .ok [] := by
        unfold loadConfigModel
        rw [hm]
      rw [hload]
      dsimp only
      rw [resolveType_unsupported hsup]
      dsimp only
      unfold finishSave
      dsimp only [initInst]
      have hsave : saveConfigModel path [] fs = .error .saveError := by
        unfold saveConfigModel
        rw [if_neg (by simp [hsup])]
      rw [hsave]

/-- Claim C8, witness: the severity-2 fast failure and the
file-present load failure at concrete unsupported paths. -/
theorem c8_unsupported_ext_witness :
    run [] 1 (.construct "app.txt" none none "2000" []) =
      some (.error .unsupportedType) ∧
    run [] 1 (.construct "app.txt" none none "1000" [("app.txt", [])]) =
      some (.error .loadError) :=
  ⟨(c8_unsupported_ext [] 0 "app.txt" none "2000" [] rfl).1 rfl,
    ((c8_unsupported_ext [] 0 "app.txt" none "1000" [("app.txt", [])]
      rfl).2 (by decide)).1 ⟨[], rfl⟩⟩

end PyConfig
